import Mathlib

/-!
Shallow embedding of the core of um235/reject_catalog:

* `src/filter_stats.py` — `match_pred` (the Predicate Evaluator) and the
  must/must_not plan combination in `main`;
* `src/classify_to_filter.py` — the SINGLE_BEST classifier loop in `start`;
* `src/graph.py` — `ensure_attr_node` (the Attribute Ontology Resolver);
* `src/ai.py` — the `llm_json` unparseable-output fallback and the shape of
  the capability calls (`convert_value`, `embed`, arbitration).

Python floats are modelled as exact rationals (ℚ): every numeric literal in
the sources is a small decimal and every comparison the claims exercise is
drawn at decimal values, so the idealisation is faithful there.  Strings are
Lean `String`s; Python's `str.lower`/`str.isdigit` are modelled on ASCII
(the claims only exercise ASCII data).  Fallible Python code is embedded in
`Except PyErr`.  External LLM/network capabilities (`convert_value`,
`embed`, the arbiter chat call) are parameters of the embedded functions.
-/

/-- Python exception kinds that the embedded code can raise. -/
inductive PyErr where
  | valueError
  | typeError
  | indexError
deriving Repr, DecidableEq

/-- Python `str.lower()` restricted to ASCII (the sources' own data may be
Cyrillic, but every claim is case-analysed here on ASCII strings, where
`Char.toLower` agrees with Python). -/
def pyLower (s : String) : String := String.mk (s.data.map Char.toLower)

/-- Python `x or ''` applied to a nullable DB text column. -/
def orEmpty (o : Option String) : String := o.getD ""

/-- Python truthiness of a nullable string (`if unit:`): `None` and `""` are
falsy. -/
def strTruthy (o : Option String) : Bool :=
  match o with
  | none => false
  | some s => !s.isEmpty

/-- Numeric value of a run of ASCII digit characters. -/
def natOfDigits (ds : List Char) : Nat :=
  ds.foldl (fun n c => n * 10 + (c.toNat - 48)) 0

/-- Power of ten with an integer exponent, as a rational. -/
def pow10 (e : Int) : ℚ :=
  if e ≥ 0 then ((10:ℚ) ^ e.toNat) else 1 / ((10:ℚ) ^ (-e).toNat)

/-- Mantissa part of Python's `float(str)` grammar: digits, optionally one
decimal point, at least one digit overall. -/
def parseMantissa (cs : List Char) : Option ℚ :=
  let ip := cs.takeWhile Char.isDigit
  let rest := cs.dropWhile Char.isDigit
  match rest with
  | [] => if ip.isEmpty then none else some ((natOfDigits ip : ℚ))
  | '.' :: fr =>
    if fr.all Char.isDigit && (!ip.isEmpty || !fr.isEmpty) then
      some ((natOfDigits ip : ℚ) + (natOfDigits fr : ℚ) / (10:ℚ) ^ fr.length)
    else none
  | _ => none

/-- Exponent part of Python's `float(str)` grammar (the characters after
`e`/`E`): optional sign then a non-empty digit run. -/
def parseExponent (cs : List Char) : Option Int :=
  match cs with
  | '+' :: ds => if !ds.isEmpty && ds.all Char.isDigit then some (natOfDigits ds) else none
  | '-' :: ds => if !ds.isEmpty && ds.all Char.isDigit then some (-(natOfDigits ds : Int)) else none
  | ds => if !ds.isEmpty && ds.all Char.isDigit then some (natOfDigits ds) else none

/-- Python `float(s)` on a string, as a partial function: optional sign,
decimal mantissa, optional `e`/`E` exponent.  (`inf`/`nan`, underscores and
surrounding whitespace — which no claim exercises — are outside the model
and map to `none`.)  `float("2,5")` and `float("abc")` raise `ValueError`
in Python; here they are `none`. -/
def pyFloatParse (s : String) : Option ℚ :=
  let cs := s.toList
  let signed : ℚ × List Char :=
    match cs with
    | '+' :: t => (1, t)
    | '-' :: t => (-1, t)
    | t => (1, t)
  let mant := signed.2.takeWhile (fun c => c ≠ 'e' && c ≠ 'E')
  let rest := signed.2.dropWhile (fun c => c ≠ 'e' && c ≠ 'E')
  match rest with
  | [] => (parseMantissa mant).map (fun m => signed.1 * m)
  | _ :: ex =>
    match parseMantissa mant, parseExponent ex with
    | some m, some e => some (signed.1 * m * pow10 e)
    | _, _ => none

/-- Removal of the first `'.'` of a character list: Python
`s.replace('.', '', 1)`. -/
def removeFirstDot : List Char → List Char
  | [] => []
  | c :: t => if c = '.' then t else c :: removeFirstDot t

/-- Python `s.isdigit()` restricted to ASCII: non-empty and all digits.
(Python also accepts Unicode digit characters; no claim exercises them.) -/
def pyIsDigitStr (cs : List Char) : Bool := !cs.isEmpty && cs.all Char.isDigit

/-- The guard on src/filter_stats.py line 22:
`isinstance(val,str) and val.replace('.','',1).isdigit()`. -/
def digitLike (s : String) : Bool := pyIsDigitStr (removeFirstDot s.toList)

/-- JSON-shaped clause value as Python sees it after `json` decoding:
string, int, float, list, or the `{gte, lte}` dict used by the `range`
operator. -/
inductive PVal where
  | s (v : String)
  | i (v : Int)
  | f (v : ℚ)
  | arr (vs : List PVal)
  | rng (gte lte : PVal)
deriving Repr

/-- Decimal digits of the fractional part of a rational in `[0,1)`, with
fuel (Python float strings always terminate well within 30 digits). -/
def fracDigits : ℚ → Nat → List Char
  | _, 0 => []
  | q, n + 1 =>
    if q = 0 then []
    else
      let d := (q * 10).floor
      Char.ofNat (48 + d.toNat) :: fracDigits (q * 10 - (d : ℚ)) n

/-- Python `str(x)` for a float, idealised to the exact decimal expansion
(agrees with Python on the terminating decimals the sources produce). -/
def ratToPyStr (q : ℚ) : String :=
  let sign := if q < 0 then "-" else ""
  let a := |q|
  let ip := a.floor.toNat
  let fr := fracDigits (a - (a.floor : ℚ)) 30
  sign ++ toString ip ++ "." ++ (if fr.isEmpty then "0" else String.mk fr)

mutual

/-- Python `str(val)` on a clause value.  Strings and ints are exact;
floats use the exact-decimal idealisation; for lists and dicts Python also
quotes inner strings — no claim evaluates `str` on those, so they are
rendered unquoted here. -/
def pyStr : PVal → String
  | .s v => v
  | .i n => toString n
  | .f q => ratToPyStr q
  | .arr vs => "[" ++ String.intercalate ", " (pyStrAll vs) ++ "]"
  | .rng g l => "\x7bgte: " ++ pyStr g ++ ", lte: " ++ pyStr l ++ "\x7d"

/-- Renderings of the members of a list value. -/
def pyStrAll : List PVal → List String
  | [] => []
  | v :: vs => pyStr v :: pyStrAll vs

end

/-- Python `float(x)` on a clause value: numbers pass through, strings are
parsed (raising `ValueError` on failure), lists/dicts raise `TypeError`. -/
def pyFloat : PVal → Except PyErr ℚ
  | .i n => .ok (n : ℚ)
  | .f q => .ok q
  | .s t =>
    match pyFloatParse t with
    | some q => .ok q
    | none => .error .valueError
  | .arr _ => .error .typeError
  | .rng _ _ => .error .typeError

/-- Substring test on character lists: Python `t in s`. -/
def hasSub (t : List Char) : List Char → Bool
  | [] => t.isEmpty
  | c :: rest => t.isPrefixOf (c :: rest) || hasSub t rest

/-- One row of the `occurrences` table as `fetch_occ_by_item` returns it
(src/db.py); `context_text` is never read by the evaluator. -/
structure Occ where
  name_text : String
  value_text : Option String
  unit_text : Option String
  number_value : Option ℚ
deriving Repr, DecidableEq

/-- One clause of a filter plan (`pred` in src/filter_stats.py):
`{attr, op, value, unit}`. -/
structure Clause where
  attr : String
  op : String
  value : PVal
  unit : Option String := none

/-- Signature of the `convert_value` capability (src/ai.py line 192): value,
source unit, target unit — LLM-backed, so left abstract. -/
abbrev Conv := ℚ → Option String → Option String → ℚ

/-- Membership of `op` in a Python tuple of operator names. -/
def opIn (op : String) (l : List String) : Bool := l.contains op

/-- Line 21 of src/filter_stats.py:
`v = float(val) if isinstance(val,(int,float,str)) else None`.
The computed value is immediately overwritten by line 22, but for a string
value that `float` cannot parse this line raises `ValueError`. -/
def lineV1 : PVal → Except PyErr (Option ℚ)
  | .s t => (pyFloat (.s t)).map some
  | .i n => .ok (some (n : ℚ))
  | .f q => .ok (some q)
  | .arr _ => .ok none
  | .rng _ _ => .ok none

/-- Line 22 of src/filter_stats.py:
`v = float(val) if isinstance(val,(int,float)) else (float(val) if
isinstance(val,str) and val.replace('.','',1).isdigit() else None)`.
Under the digit guard `float` cannot raise. -/
def numTarget : PVal → Option ℚ
  | .i n => some (n : ℚ)
  | .f q => some q
  | .s t => if digitLike t then pyFloatParse t else none
  | .arr _ => none
  | .rng _ _ => none

/-- The absolute tolerance `1e-6` of the numeric `eq` comparison
(src/filter_stats.py line 24), idealised to exactly 10⁻⁶. -/
def EQ_TOL : ℚ := 1 / 1000000

/-- The `for o in cands:` loop of src/filter_stats.py lines 18-28, entered
only for `op ∈ ('eq','gte','lte','range')`.  Candidates without a numeric
value are skipped; hits are existential; after the loop the result is
`False` (line 28). -/
def numericLoop (conv : Conv) (op : String) (val : PVal) (unit : Option String) :
    List Occ → Except PyErr Bool
  | [] => .ok false
  | o :: rest =>
    match o.number_value with
    | none => numericLoop conv op val unit rest
    | some num0 =>
      match lineV1 val with
      | .error e => .error e
      | .ok _ =>
        let v := numTarget val
        let num := if strTruthy unit then conv num0 o.unit_text unit else num0
        let hit : Except PyErr Bool :=
          if op = "eq" then
            .ok (match v with
                 | some x => decide (|num - x| < EQ_TOL)
                 | none => false)
          else if op = "gte" then
            .ok (match v with
                 | some x => decide (num ≥ x)
                 | none => false)
          else if op = "lte" then
            .ok (match v with
                 | some x => decide (num ≤ x)
                 | none => false)
          else if op = "range" then
            -- Python's chained comparison `float(val['gte']) <= num <=
            -- float(val['lte'])` short-circuits: the `lte` bound is only
            -- evaluated (and can only raise) when the lower test holds.
            match val with
            | .rng g l =>
              match pyFloat g with
              | .error e => .error e
              | .ok gq =>
                if gq ≤ num then
                  match pyFloat l with
                  | .error e => .error e
                  | .ok lq => .ok (decide (num ≤ lq))
                else .ok false
            | _ => .error .typeError
          else .ok false
        match hit with
        | .error e => .error e
        | .ok true => .ok true
        | .ok false => numericLoop conv op val unit rest

/-- Python `[str(v).lower() for v in val]` (src/filter_stats.py line 36):
lists map elementwise, a string iterates over its characters, a dict
iterates over its keys, and numbers are not iterable (`TypeError`). -/
def lowerStrList : PVal → Except PyErr (List String)
  | .arr vs => .ok ((pyStrAll vs).map pyLower)
  | .s t => .ok (t.toList.map (fun c => pyLower (String.singleton c)))
  | .rng _ _ => .ok ["gte", "lte"]
  | .i _ => .error .typeError
  | .f _ => .error .typeError

/-- `match_pred` of src/filter_stats.py (lines 10-37), over the occurrence
rows of one item.  The `conv` parameter is the `convert_value` capability.
Note the branch order of the source: `op = 'eq'` is consumed by the numeric
branch (lines 17-28), so the text-equality branch at lines 31-32 is
unreachable; it is embedded all the same. -/
def match_pred (conv : Conv) (occs : List Occ) (pred : Clause) : Except PyErr Bool :=
  let cands := occs.filter (fun o => pyLower o.name_text == pyLower pred.attr)
  if cands.isEmpty then
    .ok (if opIn pred.op ["eq", "gte", "lte", "range", "contains"] then false else true)
  else if opIn pred.op ["eq", "gte", "lte", "range"] then
    numericLoop conv pred.op pred.value pred.unit cands
  else if pred.op = "contains" then
    let t := pyLower (pyStr pred.value)
    .ok (cands.any (fun o => hasSub t.toList (pyLower (orEmpty o.value_text)).toList))
  else if pred.op = "eq" then
    let t := pyLower (pyStr pred.value)
    .ok (cands.any (fun o => t == pyLower (orEmpty o.value_text)))
  else if pred.op = "neq" then
    let t := pyLower (pyStr pred.value)
    .ok (cands.all (fun o => t != pyLower (orEmpty o.value_text)))
  else if pred.op = "in" then
    match lowerStrList pred.value with
    | .error e => .error e
    | .ok arr => .ok (cands.any (fun o => arr.contains (pyLower (orEmpty o.value_text))))
  else .ok false

/-- A filter plan: the three clause lists of the `FilterPlan` schema. -/
structure FilterPlan where
  must : List Clause
  must_not : List Clause
  should : List Clause

/-- Python `all(match_pred(db, iid, p) for p in plan.get('must', []))`
(src/filter_stats.py line 60, src/classify_to_filter.py line 43), with the
generator's short-circuit and exception propagation. -/
def allMust (conv : Conv) (occs : List Occ) : List Clause → Except PyErr Bool
  | [] => .ok true
  | p :: ps =>
    match match_pred conv occs p with
    | .error e => .error e
    | .ok true => allMust conv occs ps
    | .ok false => .ok false

/-- Python `all(not match_pred(db, iid, p) for p in plan.get('must_not', []))`
(src/filter_stats.py line 61, src/classify_to_filter.py line 44). -/
def allMustNot (conv : Conv) (occs : List Occ) : List Clause → Except PyErr Bool
  | [] => .ok true
  | p :: ps =>
    match match_pred conv occs p with
    | .error e => .error e
    | .ok true => .ok false
    | .ok false => allMustNot conv occs ps

/-- The per-item plan decision shared by src/filter_stats.py lines 60-62 and
src/classify_to_filter.py lines 43-45: `must_ok and must_not_ok`, where both
conjuncts are always computed (the `should` list is never read). -/
def plan_matches (conv : Conv) (occs : List Occ) (plan : FilterPlan) : Except PyErr Bool :=
  match allMust conv occs plan.must with
  | .error e => .error e
  | .ok must_ok =>
    match allMustNot conv occs plan.must_not with
    | .error e => .error e
    | .ok must_not_ok => .ok (must_ok && must_not_ok)

/-- A row of `saved_filters` as `load_filters` returns it (src/db.py
line 85). -/
structure SavedFilter where
  filter_id : String
  name : String
  plan : FilterPlan

/-- The SINGLE_BEST selection loop of src/classify_to_filter.py lines 40-48:
`best = None; score = -1`, then for each filter `s = 1.0 if matches else
0.0; if s > score: best, score = f, s`.  The float scores are exact small
integers and are modelled in ℤ. -/
def selectLoop (conv : Conv) (occs : List Occ) :
    List SavedFilter → Option SavedFilter → Int → Except PyErr (Option SavedFilter)
  | [], best, _ => .ok best
  | f :: rest, best, score =>
    match plan_matches conv occs f.plan with
    | .error e => .error e
    | .ok m =>
      let s : Int := if m then 1 else 0
      if s > score then selectLoop conv occs rest (some f) s
      else selectLoop conv occs rest best score

/-- The classifier's SINGLE_BEST mode over one item's occurrences
(src/classify_to_filter.py lines 40-48). -/
def classify_best (conv : Conv) (occs : List Occ) (fs : List SavedFilter) :
    Except PyErr (Option SavedFilter) :=
  selectLoop conv occs fs none (-1)

/-- A row of `attr_nodes` as `get_attr_nodes` returns it (src/db.py
line 63), with the JSON columns already decoded as in src/graph.py
lines 25-26. -/
structure AttrNode where
  attr_id : Nat
  label : String
  centroid : List ℚ
  examples : List String
deriving Repr, Inhabited

/-- `SIM_THRESHOLD_NEW_ATTR` of src/config.py (default `float("0.78")`),
idealised to the exact decimal 78/100. -/
def SIM_THRESHOLD_NEW_ATTR : ℚ := mkRat 78 100

/-- `TOPK_ATTR` of src/config.py (default 8). -/
def TOPK_ATTR : Nat := 8

/-- Signature of the similarity computation `cosine(qv, c)` of src/ai.py
line 34 (`dot(a,b)/(‖a‖·‖b‖)`, or 0 when a norm vanishes).  It is computed
in floating point over capability-produced embeddings, so the resolver is
embedded over an abstract score function; every resolver claim quantifies
over the scores anyway. -/
abbrev Sim := List ℚ → List ℚ → ℚ

/-- First index of the maximum (tail of the scan, with current best).
`np.argmax` keeps the first maximal index: a later equal value does not
displace the current best. -/
def argmaxFrom (cur : ℚ) (curIdx i : Nat) : List ℚ → Nat
  | [] => curIdx
  | x :: rest => if cur < x then argmaxFrom x i (i + 1) rest else argmaxFrom cur curIdx (i + 1) rest

/-- `np.argmax` over a non-empty score list (src/graph.py line 29). -/
def np_argmax : List ℚ → Nat
  | [] => 0
  | x :: rest => argmaxFrom x 0 1 rest

/-- Comparison key of the ascending argsort: by score, with ties kept in
ascending index order. -/
def rAsc (sims : List ℚ) (i j : Nat) : Prop :=
  sims.getD i 0 < sims.getD j 0 ∨ (sims.getD i 0 = sims.getD j 0 ∧ i ≤ j)

instance rAscDecidable (sims : List ℚ) : DecidableRel (rAsc sims) := fun i j => by
  unfold rAsc
  exact inferInstance

instance rAscTotal (sims : List ℚ) : IsTotal Nat (rAsc sims) := by
  constructor
  intro i j
  rcases lt_trichotomy (sims.getD i 0) (sims.getD j 0) with h | h | h
  · exact Or.inl (Or.inl h)
  · rcases Nat.le_total i j with hij | hij
    · exact Or.inl (Or.inr ⟨h, hij⟩)
    · exact Or.inr (Or.inr ⟨h.symm, hij⟩)
  · exact Or.inr (Or.inl h)

instance rAscTrans (sims : List ℚ) : IsTrans Nat (rAsc sims) := by
  constructor
  intro a b c hab hbc
  rcases hab with hab | ⟨hab, hab'⟩
  · rcases hbc with hbc | ⟨hbc, _⟩
    · exact Or.inl (hab.trans hbc)
    · exact Or.inl (hbc ▸ hab)
  · rcases hbc with hbc | ⟨hbc, hbc'⟩
    · exact Or.inl (hab ▸ hbc)
    · exact Or.inr ⟨hab.trans hbc, hab'.trans hbc'⟩

/-- `np.argsort(np.array(sims))` (src/graph.py line 37): an ascending
argsort.  `np.argsort`'s default kind (quicksort/introsort) is documented
as not stable, so the relative order of equal keys is implementation
defined for large arrays; numpy does run a stable insertion sort below its
small-array cutoff, which is the regime the concrete counterexample uses.
The embedding fixes the ascending-index tie key as one admissible
representative and the theorems below assert only properties that are the
same for every admissible tie order (value order, length, distinctness,
index range). -/
def np_argsort (sims : List ℚ) : List Nat :=
  List.insertionSort (rAsc sims) (List.range sims.length)

/-- `np.argsort(np.array(sims))[::-1][:k]` (src/graph.py line 37), with
`k = min(TOPK_ATTR, len(rows))` at the call site. -/
def topk_order (sims : List ℚ) (k : Nat) : List Nat :=
  (np_argsort sims).reverse.take k

/-- Result of the arbitration chat call as `llm_json` (src/ai.py
lines 211-227) sees it: either the model output failed to parse as JSON, or
it parsed to an object whose `best_index` field may be absent. -/
inductive ArbReply where
  | unparseable
  | parsed (best_index : Option Int)

/-- `llm_json` returns `{}` when the content is unparseable (src/ai.py
lines 223-227), and src/graph.py line 40 then reads
`int(j.get("best_index", -1))`. -/
def arb_best_index : ArbReply → Int
  | .unparseable => -1
  | .parsed none => -1
  | .parsed (some i) => i

/-- The arbitration capability: from the candidate payload sent to the LLM
to the (possibly unparseable) reply. -/
abbrev Arbiter := List (String × List String) → ArbReply

/-- What `ensure_attr_node` does to the store: either
`db.create_attr_node(label, vec, label)` or
`db.update_attr_node(attr_id, new_centroid, label)`. -/
inductive ResolveOutcome where
  | created (label : String) (centroid : List ℚ) (ex : String)
  | merged (attr_id : Nat) (new_centroid : List ℚ) (new_example : String)
deriving Repr, DecidableEq

/-- The centroid update of src/graph.py lines 33 and 43:
`((np.array(c) + np.array(qv))/2.0).tolist()`, the elementwise pairwise
average (embeddings share one dimensionality, per the capability
contract). -/
def merge_centroid (c e : List ℚ) : List ℚ :=
  List.zipWith (fun a b => (a + b) / 2) c e

/-- `sims = [cosine(qv, c) for c in centroids]` (src/graph.py line 28). -/
def attr_sims (sim : Sim) (qv : List ℚ) (nodes : List AttrNode) : List ℚ :=
  nodes.map (fun r => sim qv r.centroid)

/-- The candidate payload sent to the arbiter (src/graph.py line 38):
`(label, examples)` of each top-K node, in `order` order. -/
def arb_candidates (nodes : List AttrNode) (sims : List ℚ) : List (String × List String) :=
  (topk_order sims (min TOPK_ATTR nodes.length)).map
    (fun i => ((nodes.getD i default).label, (nodes.getD i default).examples))

/-- The arbitration escalation of src/graph.py lines 36-47: consult the
arbiter over the top-K candidates; a non-negative `best_index` is resolved
through `order` (raising `IndexError` when it exceeds the top-K list, as
`order[idx]` does) and merged; `-1` creates a new node from the already
computed `qv`. -/
def escalate (arbiter : Arbiter) (nodes : List AttrNode) (label : String) (qv : List ℚ)
    (sims : List ℚ) : Except PyErr ResolveOutcome :=
  let order := topk_order sims (min TOPK_ATTR nodes.length)
  let idx := arb_best_index (arbiter (arb_candidates nodes sims))
  if idx ≥ 0 then
    match order.get? idx.toNat with
    | some i =>
      .ok (.merged (nodes.getD i default).attr_id
        (merge_centroid (nodes.getD i default).centroid qv) label)
    | none => .error .indexError
  else .ok (.created label qv label)

/-- `ensure_attr_node` of src/graph.py (lines 20-47).  `qv` is the embedding
`embed([label])[0]` that the capability returned for this call (used both
for the empty-ontology create and for all merges — the source embeds the
label exactly once per branch). -/
def ensure_attr_node (sim : Sim) (arbiter : Arbiter) (nodes : List AttrNode) (label : String)
    (qv : List ℚ) : Except PyErr ResolveOutcome :=
  if nodes.isEmpty then .ok (.created label qv label)
  else
    let sims := attr_sims sim qv nodes
    let best_i := np_argmax sims
    let best_score := sims.getD best_i 0
    if best_score ≥ SIM_THRESHOLD_NEW_ATTR then
      .ok (.merged (nodes.getD best_i default).attr_id
        (merge_centroid (nodes.getD best_i default).centroid qv) label)
    else escalate arbiter nodes label qv sims

/-- Score of one filter in SINGLE_BEST mode, given the per-filter match
outcome `mf`: `1.0 if Matches else 0.0` (the claim-side notion, in ℤ). -/
def scoreOf (mf : SavedFilter → Bool) (f : SavedFilter) : Int :=
  if mf f then 1 else 0

/-- The maximum the SINGLE_BEST loop's running score reaches over a filter
list, from the initial `-1` (for a non-empty list this is the maximum score
over all filters). -/
def maxScore (mf : SavedFilter → Bool) (fs : List SavedFilter) : Int :=
  (fs.map (scoreOf mf)).foldl max (-1)

instance instExceptDecEq {ε α : Type} [DecidableEq ε] [DecidableEq α] :
    DecidableEq (Except ε α) := fun x y =>
  match x, y with
  | .ok a, .ok b => decidable_of_iff (a = b) (by simp)
  | .error e, .error f => decidable_of_iff (e = f) (by simp)
  | .ok _, .error _ => isFalse (fun h => Except.noConfusion h)
  | .error _, .ok _ => isFalse (fun h => Except.noConfusion h)

/-! ## Helper lemmas -/

/-- `all(match_pred ...)` over `must` succeeds with `True` exactly when every
clause evaluates to `ok true`. -/
theorem allMust_ok_iff (conv : Conv) (occs : List Occ) (l : List Clause) :
    allMust conv occs l = .ok true ↔ ∀ p ∈ l, match_pred conv occs p = .ok true := by
  induction l with
  | nil => simp [allMust]
  | cons p ps ih =>
    cases h : match_pred conv occs p with
    | error e => simp [allMust, h]
    | ok b =>
      cases b with
      | true => simp [allMust, h, ih]
      | false => simp [allMust, h]

/-- `all(not match_pred ...)` over `must_not` succeeds with `True` exactly
when every clause evaluates to `ok false`. -/
theorem allMustNot_ok_iff (conv : Conv) (occs : List Occ) (l : List Clause) :
    allMustNot conv occs l = .ok true ↔ ∀ p ∈ l, match_pred conv occs p = .ok false := by
  induction l with
  | nil => simp [allMustNot]
  | cons p ps ih =>
    cases h : match_pred conv occs p with
    | error e => simp [allMustNot, h]
    | ok b =>
      cases b with
      | true => simp [allMustNot, h]
      | false => simp [allMustNot, h, ih]

/-- numericLoop with a string target that fails the digit check returns
`ok false` whenever the target is float-parseable or no candidate carries a
number (the loop skips numberless candidates at line 20 and, with `v =
None`, no comparison at lines 24-26 can fire). -/
theorem numericLoop_bad_target (conv : Conv) (op t : String) (unit : Option String)
    (hop : op = "eq" ∨ op = "gte" ∨ op = "lte") (hdl : digitLike t = false) :
    ∀ cands : List Occ,
      (pyFloatParse t ≠ none ∨ ∀ o ∈ cands, o.number_value = none) →
      numericLoop conv op (.s t) unit cands = .ok false := by
  intro cands
  induction cands with
  | nil => intro _; rfl
  | cons o rest ih =>
    intro hsafe
    cases hnum : o.number_value with
    | none =>
      rw [numericLoop, hnum]
      apply ih
      rcases hsafe with hp | hall
      · exact Or.inl hp
      · exact Or.inr (fun o' ho' => hall o' (List.mem_cons_of_mem _ ho'))
    | some num =>
      have hp : pyFloatParse t ≠ none := by
        rcases hsafe with hp | hall
        · exact hp
        · exact absurd (hall o (List.mem_cons_self _ _)) (by simp [hnum])
      obtain ⟨q, hq⟩ := Option.ne_none_iff_exists'.mp hp
      have hrec : numericLoop conv op (.s t) unit rest = .ok false :=
        ih (Or.inl hp)
      rw [numericLoop, hnum]
      rcases hop with rfl | rfl | rfl <;>
        simp [lineV1, pyFloat, hq, numTarget, hdl, hrec, Except.map]

/-- The argmax scan returns an index below `i + xs.length` whenever the
current best index does. -/
theorem argmaxFrom_lt (xs : List ℚ) : ∀ (cur : ℚ) (ci i : Nat), ci < i →
    argmaxFrom cur ci i xs < i + xs.length := by
  induction xs with
  | nil => intro cur ci i h; simpa [argmaxFrom] using h
  | cons x rest ih =>
    intro cur ci i h
    rw [argmaxFrom]
    by_cases hx : cur < x
    · rw [if_pos hx]
      have := ih x i (i + 1) (Nat.lt_succ_self i)
      simpa [Nat.add_assoc, Nat.add_comm, Nat.add_left_comm] using this
    · rw [if_neg hx]
      have := ih cur ci (i + 1) (Nat.lt_succ_of_lt h)
      simpa [Nat.add_assoc, Nat.add_comm, Nat.add_left_comm] using this

/-- `np.argmax` of a non-empty list is a valid index. -/
theorem np_argmax_lt (sims : List ℚ) (h : sims ≠ []) : np_argmax sims < sims.length := by
  cases sims with
  | nil => exact absurd rfl h
  | cons x rest =>
    rw [np_argmax]
    have h1 := argmaxFrom_lt rest x 0 1 Nat.one_pos
    simp only [List.length_cons]
    omega

/-- The ascending argsort is sorted for its key. -/
theorem np_argsort_sorted (sims : List ℚ) : List.Sorted (rAsc sims) (np_argsort sims) :=
  List.sorted_insertionSort _ _

/-- The ascending argsort is a permutation of `range`. -/
theorem np_argsort_perm (sims : List ℚ) :
    List.Perm (np_argsort sims) (List.range sims.length) :=
  List.perm_insertionSort _ _

/-- The ascending argsort has no duplicate indices. -/
theorem np_argsort_nodup (sims : List ℚ) : (np_argsort sims).Nodup :=
  ((np_argsort_perm sims).nodup_iff).mpr (List.nodup_range _)

/-- Every index produced by the argsort is in range. -/
theorem np_argsort_mem_lt (sims : List ℚ) : ∀ i ∈ np_argsort sims, i < sims.length := by
  intro i hi
  have := ((np_argsort_perm sims).mem_iff).mp hi
  simpa using this

/-- Every index in the top-K slice is in range. -/
theorem topk_order_mem_lt (sims : List ℚ) (k : Nat) :
    ∀ i ∈ topk_order sims k, i < sims.length := by
  intro i hi
  apply np_argsort_mem_lt
  have h1 : i ∈ (np_argsort sims).reverse := List.mem_of_mem_take hi
  exact List.mem_reverse.mp h1

/-- With a non-empty ontology and best score at or above the threshold, the
resolver merges into the argmax node (src/graph.py lines 31-35). -/
theorem ensure_merges_of_threshold (sim : Sim) (arbiter : Arbiter) (nodes : List AttrNode)
    (label : String) (qv : List ℚ) (hne : nodes ≠ [])
    (hge : (attr_sims sim qv nodes).getD (np_argmax (attr_sims sim qv nodes)) 0 ≥
      SIM_THRESHOLD_NEW_ATTR) :
    ensure_attr_node sim arbiter nodes label qv =
      .ok (.merged (nodes.getD (np_argmax (attr_sims sim qv nodes)) default).attr_id
        (merge_centroid (nodes.getD (np_argmax (attr_sims sim qv nodes)) default).centroid qv)
        label) := by
  have h0 : ¬ (nodes.isEmpty = true) := by
    simp [List.isEmpty_iff, hne]
  rw [ensure_attr_node, if_neg h0, if_pos hge]

/-- With a non-empty ontology and best score strictly below the threshold,
the resolver escalates to arbitration (src/graph.py lines 36-47). -/
theorem ensure_escalates_of_below (sim : Sim) (arbiter : Arbiter) (nodes : List AttrNode)
    (label : String) (qv : List ℚ) (hne : nodes ≠ [])
    (hlt : (attr_sims sim qv nodes).getD (np_argmax (attr_sims sim qv nodes)) 0 <
      SIM_THRESHOLD_NEW_ATTR) :
    ensure_attr_node sim arbiter nodes label qv =
      escalate arbiter nodes label qv (attr_sims sim qv nodes) := by
  have h0 : ¬ (nodes.isEmpty = true) := by
    simp [List.isEmpty_iff, hne]
  rw [ensure_attr_node, if_neg h0, if_neg (not_le.mpr hlt)]

/-- Elementwise description of one centroid merge. -/
theorem merge_centroid_getD (C E : List ℚ) (k : Nat) (hC : k < C.length) (hE : k < E.length) :
    (merge_centroid C E).getD k 0 = (C.getD k 0 + E.getD k 0) / 2 := by
  induction C generalizing E k with
  | nil => simp at hC
  | cons c cs ih =>
    cases E with
    | nil => simp at hE
    | cons e es =>
      cases k with
      | zero => simp [merge_centroid]
      | succ n =>
        have h1 : n < cs.length := by simpa using hC
        have h2 : n < es.length := by simpa using hE
        simpa [merge_centroid] using ih es n h1 h2

/-- C5: on every merge — threshold path or arbitration path alike — the
node's new centroid is the exact elementwise pairwise average `(C+E)/2` of
the merged node's old centroid and the query embedding (not a
count-weighted mean), and two sequential merges with `E1` then `E2` compose
to `(((C+E1)/2)+E2)/2` elementwise. -/
theorem c5_merge_formula (sim : Sim) (arbiter : Arbiter) (nodes : List AttrNode)
    (label : String) (qv : List ℚ) (aid : Nat) (c : List ℚ) (ex : String)
    (h : ensure_attr_node sim arbiter nodes label qv = .ok (.merged aid c ex)) :
    (∃ r ∈ nodes, aid = r.attr_id ∧ c = merge_centroid r.centroid qv) ∧
    (∀ (C E : List ℚ) (k : Nat), k < C.length → k < E.length →
      (merge_centroid C E).getD k 0 = (C.getD k 0 + E.getD k 0) / 2) ∧
    (∀ (C E1 E2 : List ℚ) (k : Nat), k < C.length → k < E1.length → k < E2.length →
      (merge_centroid (merge_centroid C E1) E2).getD k 0 =
        ((C.getD k 0 + E1.getD k 0) / 2 + E2.getD k 0) / 2) := by
  refine ⟨?_, fun C E k hC hE => merge_centroid_getD C E k hC hE, ?_⟩
  · by_cases h0 : nodes.isEmpty = true
    · rw [ensure_attr_node, if_pos h0] at h
      exact absurd h (by simp)
    · have hne : nodes ≠ [] := by
        intro hnil
        exact h0 (by simp [hnil])
      simp only [ensure_attr_node, h0, if_false, Bool.false_eq_true] at h
      by_cases hth : (attr_sims sim qv nodes).getD (np_argmax (attr_sims sim qv nodes)) 0 ≥
          SIM_THRESHOLD_NEW_ATTR
      · rw [if_pos hth] at h
        simp only [Except.ok.injEq, ResolveOutcome.merged.injEq] at h
        have hsne : attr_sims sim qv nodes ≠ [] := by
          simp [attr_sims, hne]
        have hlt : np_argmax (attr_sims sim qv nodes) < nodes.length := by
          have := np_argmax_lt _ hsne
          simpa [attr_sims] using this
        refine ⟨nodes.getD (np_argmax (attr_sims sim qv nodes)) default, ?_, h.1.symm, h.2.1.symm⟩
        rw [List.getD_eq_getElem _ _ hlt]
        exact List.getElem_mem _
      · rw [if_neg hth] at h
        simp only [escalate] at h
        by_cases hidx : arb_best_index (arbiter (arb_candidates nodes (attr_sims sim qv nodes))) ≥ 0
        · rw [if_pos hidx] at h
          cases hget : (topk_order (attr_sims sim qv nodes) (min TOPK_ATTR nodes.length)).get?
              (arb_best_index (arbiter (arb_candidates nodes (attr_sims sim qv nodes)))).toNat with
          | none => rw [hget] at h; exact absurd h (by simp)
          | some i =>
            rw [hget] at h
            simp only [Except.ok.injEq, ResolveOutcome.merged.injEq] at h
            have hi : i < nodes.length := by
              have hmem := List.get?_mem hget
              have := topk_order_mem_lt _ _ i hmem
              simpa [attr_sims] using this
            refine ⟨nodes.getD i default, ?_, h.1.symm, h.2.1.symm⟩
            rw [List.getD_eq_getElem _ _ hi]
            exact List.getElem_mem _
        · rw [if_neg hidx] at h
          exact absurd h (by simp)
  · intro C E1 E2 k h1 h2 h3
    have hm : k < (merge_centroid C E1).length := by
      simp only [merge_centroid, List.length_zipWith]
      omega
    rw [merge_centroid_getD _ _ _ hm h3, merge_centroid_getD _ _ _ h1 h2]

/-- C5 witness: a concrete threshold-path merge, inverted by the theorem. -/
theorem c5_merge_formula_witness :
    ∃ r ∈ [(⟨1, "colour", [1, 0], ["colour"]⟩ : AttrNode)],
      1 = r.attr_id ∧ merge_centroid [1, 0] [0, 1] = merge_centroid r.centroid [0, 1] := by
  have h : ensure_attr_node (fun _ _ => SIM_THRESHOLD_NEW_ATTR) (fun _ => .unparseable)
      [⟨1, "colour", [1, 0], ["colour"]⟩] "color" [0, 1] =
      .ok (.merged 1 (merge_centroid [1, 0] [0, 1]) "color") := by rfl
  exact (c5_merge_formula _ _ _ _ _ _ _ _ h).1

/-- C6: with a non-empty ontology, a best score exactly equal to
`SIM_THRESHOLD_NEW_ATTR` merges into the best node without consulting the
arbiter (the outcome is the same for every arbiter), while a best score
strictly below the threshold escalates to arbitration. -/
theorem c6_threshold_boundary (sim : Sim) (arbiter : Arbiter) (nodes : List AttrNode)
    (label : String) (qv : List ℚ) (hne : nodes ≠ []) :
    ((attr_sims sim qv nodes).getD (np_argmax (attr_sims sim qv nodes)) 0 =
        SIM_THRESHOLD_NEW_ATTR →
      ensure_attr_node sim arbiter nodes label qv =
        .ok (.merged (nodes.getD (np_argmax (attr_sims sim qv nodes)) default).attr_id
          (merge_centroid (nodes.getD (np_argmax (attr_sims sim qv nodes)) default).centroid qv)
          label)) ∧
    ((attr_sims sim qv nodes).getD (np_argmax (attr_sims sim qv nodes)) 0 <
        SIM_THRESHOLD_NEW_ATTR →
      ensure_attr_node sim arbiter nodes label qv =
        escalate arbiter nodes label qv (attr_sims sim qv nodes)) :=
  ⟨fun he => ensure_merges_of_threshold sim arbiter nodes label qv hne (ge_of_eq he),
   fun hlt => ensure_escalates_of_below sim arbiter nodes label qv hne hlt⟩

/-- C6 witness: one node whose similarity is exactly the threshold is
merged. -/
theorem c6_threshold_boundary_witness :
    ensure_attr_node (fun _ _ => SIM_THRESHOLD_NEW_ATTR) (fun _ => .unparseable)
      [⟨1, "colour", [1, 0], ["colour"]⟩] "color" [0, 1] =
      .ok (.merged 1 (merge_centroid [1, 0] [0, 1]) "color") :=
  (c6_threshold_boundary (fun _ _ => SIM_THRESHOLD_NEW_ATTR) (fun _ => .unparseable)
    [⟨1, "colour", [1, 0], ["colour"]⟩] "color" [0, 1] (by simp)).1 rfl

/-- C3 counterexample: with one existing node, a similarity below the
threshold and an arbitration reply that fails to parse, the Resolver does
not raise — it falls back to creating a new attribute node for the label,
contrary to the claim. -/
theorem c3_unparseable_cex :
    ensure_attr_node (fun _ _ => 0) (fun _ => .unparseable)
      [⟨1, "colour", [1, 0], ["colour"]⟩] "color" [0, 1] =
      .ok (.created "color" [0, 1] "color") ∧
    ∀ e : PyErr, ensure_attr_node (fun _ _ => 0) (fun _ => .unparseable)
      [⟨1, "colour", [1, 0], ["colour"]⟩] "color" [0, 1] ≠ .error e := by
  have h1 : ensure_attr_node (fun _ _ => 0) (fun _ => .unparseable)
      [⟨1, "colour", [1, 0], ["colour"]⟩] "color" [0, 1] =
      .ok (.created "color" [0, 1] "color") := by decide
  refine ⟨h1, fun e he => ?_⟩
  rw [h1] at he
  exact Except.noConfusion he

/-- C3 (amended): an unparseable arbitration reply makes `llm_json` return
the empty object, so `best_index` defaults to `-1` and the Resolver creates
a new attribute node from the already-computed embedding; the call does not
raise. -/
theorem c3_unparseable_creates (sim : Sim) (nodes : List AttrNode) (label : String)
    (qv : List ℚ) (hne : nodes ≠ [])
    (hlt : (attr_sims sim qv nodes).getD (np_argmax (attr_sims sim qv nodes)) 0 <
      SIM_THRESHOLD_NEW_ATTR) :
    ensure_attr_node sim (fun _ => .unparseable) nodes label qv =
      .ok (.created label qv label) := by
  rw [ensure_escalates_of_below sim (fun _ => .unparseable) nodes label qv hne hlt]
  rfl

/-- C3 witness: the amended theorem applied at the counterexample input. -/
theorem c3_unparseable_creates_witness :
    ensure_attr_node (fun _ _ => 0) (fun _ => .unparseable)
      [⟨1, "colour", [1, 0], ["colour"]⟩] "color" [0, 1] =
      .ok (.created "color" [0, 1] "color") :=
  c3_unparseable_creates (fun _ _ => 0) [⟨1, "colour", [1, 0], ["colour"]⟩] "color" [0, 1]
    (by simp) (by decide)

/-- C2 (amended): the top-K list handed to the arbiter has
`K = min(TOPK_ATTR, number of nodes)` entries, consists of distinct valid
node indices, and is ordered by descending (non-increasing) similarity.
The claimed ascending-index order at ties is false (see the
counterexample), and no particular tie order holds universally:
`np.argsort`'s default sort is unstable, so beyond numpy's small-array
insertion-sort regime the order of equal-similarity indices is
implementation defined.  Only the tie-insensitive properties are asserted
here. -/
theorem c2_topk_order_sorted (sims : List ℚ) (k : Nat) :
    List.Pairwise (fun i j => sims.getD i 0 ≥ sims.getD j 0) (topk_order sims k) ∧
    (topk_order sims k).length = min k sims.length ∧
    (topk_order sims k).Nodup ∧
    ∀ i ∈ topk_order sims k, i < sims.length := by
  refine ⟨?_, ?_, ?_, topk_order_mem_lt sims k⟩
  · have hs : List.Pairwise (rAsc sims) (np_argsort sims) := np_argsort_sorted sims
    have hrev : List.Pairwise (fun i j => rAsc sims j i) (np_argsort sims).reverse :=
      (List.pairwise_reverse).mpr hs
    have htake : List.Pairwise (fun i j => rAsc sims j i) (topk_order sims k) :=
      hrev.sublist (List.take_sublist k _)
    refine htake.imp ?_
    intro a b hab
    rcases hab with h1 | ⟨h1, -⟩
    · exact h1.le
    · exact h1.le
  · have h1 : (np_argsort sims).length = sims.length := (np_argsort_perm sims).length_eq.trans
      (by simp)
    simp [topk_order, h1]
  · exact (List.nodup_reverse.mpr (np_argsort_nodup sims)).sublist (List.take_sublist k _)

/-- C2 counterexample: two nodes with equal similarity are presented in
descending index order `[1, 0]`, not the ascending order the claim
states. -/
theorem c2_topk_tie_cex :
    topk_order [(0:ℚ), 0] (min TOPK_ATTR 2) = [1, 0] ∧
    ¬ List.Pairwise (fun i j => [(0:ℚ), 0].getD i 0 > [(0:ℚ), 0].getD j 0 ∨
        ([(0:ℚ), 0].getD i 0 = [(0:ℚ), 0].getD j 0 ∧ i < j))
      (topk_order [(0:ℚ), 0] (min TOPK_ATTR 2)) := by
  have h1 : topk_order [(0:ℚ), 0] (min TOPK_ATTR 2) = [1, 0] := by decide
  refine ⟨h1, ?_⟩
  rw [h1]
  intro hp
  rcases List.pairwise_cons.mp hp with ⟨hr, -⟩
  rcases hr 0 (by simp) with h | ⟨-, h⟩
  · exact absurd h (by decide)
  · omega

/-- Folding `max` over the SINGLE_BEST scores from any start value. -/
theorem foldl_max_scores (mf : SavedFilter → Bool) :
    ∀ (fs : List SavedFilter) (a : Int),
      (fs.map (scoreOf mf)).foldl max a =
        if fs.any mf then max a 1 else (if fs.isEmpty then a else max a 0) := by
  intro fs
  induction fs with
  | nil => intro a; simp
  | cons f rest ih =>
    intro a
    cases hf : mf f with
    | true =>
      have hsc : scoreOf mf f = 1 := by simp [scoreOf, hf]
      have h1 := ih (max a 1)
      simp only [List.map_cons, List.foldl_cons, hsc, List.any_cons, hf, Bool.true_or,
        List.isEmpty_cons, if_true]
      rw [h1]
      rcases hany : rest.any mf with _ | _ <;> rcases hemp : rest.isEmpty with _ | _ <;>
        (simp_all; try omega)
    | false =>
      have hsc : scoreOf mf f = 0 := by simp [scoreOf, hf]
      have h1 := ih (max a 0)
      simp only [List.map_cons, List.foldl_cons, hsc, List.any_cons, hf, Bool.false_or,
        List.isEmpty_cons]
      rw [h1]
      rcases hany : rest.any mf with _ | _ <;> rcases hemp : rest.isEmpty with _ | _ <;>
        (simp_all; try omega)

/-- For a non-empty filter list the loop's reachable maximum is `1` when
some filter matches and `0` otherwise. -/
theorem maxScore_eq (mf : SavedFilter → Bool) (fs : List SavedFilter) (hne : fs ≠ []) :
    maxScore mf fs = if fs.any mf then 1 else 0 := by
  rw [maxScore, foldl_max_scores]
  have hemp : fs.isEmpty = false := by simp [List.isEmpty_iff, hne]
  rcases hany : fs.any mf with _ | _ <;> (simp [hemp]; try omega)

/-- Once the running score is `1`, no later filter can displace the kept
best. -/
theorem selectLoop_score_one (conv : Conv) (occs : List Occ) (mf : SavedFilter → Bool) :
    ∀ (fs : List SavedFilter) (best : Option SavedFilter),
      (∀ f ∈ fs, plan_matches conv occs f.plan = .ok (mf f)) →
      selectLoop conv occs fs best 1 = .ok best := by
  intro fs
  induction fs with
  | nil => intro best _; rfl
  | cons f rest ih =>
    intro best hmf
    have h1 := hmf f (List.mem_cons_self _ _)
    have hlt : ¬ ((if mf f then (1:Int) else 0) > 1) := by
      cases mf f <;> simp
    simp only [selectLoop, h1, hlt, if_false]
    exact ih best (fun g hg => hmf g (List.mem_cons_of_mem _ hg))

/-- With the running score at `0` and some best already kept, the loop ends
on the first matching filter, else keeps the accumulator. -/
theorem selectLoop_score_zero (conv : Conv) (occs : List Occ) (mf : SavedFilter → Bool) :
    ∀ (fs : List SavedFilter) (b : SavedFilter),
      (∀ f ∈ fs, plan_matches conv occs f.plan = .ok (mf f)) →
      selectLoop conv occs fs (some b) 0 = .ok (some ((fs.find? mf).getD b)) := by
  intro fs
  induction fs with
  | nil => intro b _; rfl
  | cons f rest ih =>
    intro b hmf
    have h1 := hmf f (List.mem_cons_self _ _)
    cases hf : mf f with
    | true =>
      have hgt : (if mf f then (1:Int) else 0) > 0 := by simp [hf]
      simp only [selectLoop, h1, hf, if_true, hgt]
      rw [List.find?_cons_of_pos _ hf]
      simpa using selectLoop_score_one conv occs mf rest (some f)
        (fun g hg => hmf g (List.mem_cons_of_mem _ hg))
    | false =>
      have hgt : ¬ ((if mf f then (1:Int) else 0) > 0) := by simp [hf]
      simp only [selectLoop, h1, hf, hgt, if_false]
      rw [List.find?_cons_of_neg _ (by simp [hf])]
      exact ih b (fun g hg => hmf g (List.mem_cons_of_mem _ hg))

/-- C8: in SINGLE_BEST mode, over a non-empty saved-filter list whose plans
all evaluate without error, the classifier keeps the first filter in
storage iteration order whose score (`1` if its plan matches, else `0`)
attains the maximum score over all filters; in particular two filters both
scoring `1` resolve to the lower storage index. -/
theorem c8_single_best_first_max (conv : Conv) (occs : List Occ) (fs : List SavedFilter)
    (mf : SavedFilter → Bool)
    (hmf : ∀ f ∈ fs, plan_matches conv occs f.plan = .ok (mf f)) (hne : fs ≠ []) :
    classify_best conv occs fs = .ok (fs.find? (fun f => scoreOf mf f == maxScore mf fs)) := by
  cases fs with
  | nil => exact absurd rfl hne
  | cons f0 rest =>
    have h0 := hmf f0 (List.mem_cons_self _ _)
    have hrest : ∀ f ∈ rest, plan_matches conv occs f.plan = .ok (mf f) :=
      fun g hg => hmf g (List.mem_cons_of_mem _ hg)
    have hmax := maxScore_eq mf (f0 :: rest) (by simp)
    cases hf0 : mf f0 with
    | true =>
      have hany : (f0 :: rest).any mf = true := by simp [hf0]
      have hmax1 : maxScore mf (f0 :: rest) = 1 := by rw [hmax, hany]; rfl
      have hs1 : (if mf f0 = true then (1:Int) else 0) = 1 := by simp [hf0]
      simp only [classify_best, selectLoop, h0, hs1]
      rw [if_pos (by norm_num : (1:Int) > -1)]
      rw [selectLoop_score_one conv occs mf rest (some f0) hrest]
      rw [List.find?_cons_of_pos _ (by simp [scoreOf, hf0, hmax1])]
    | false =>
      have hs0 : (if mf f0 = true then (1:Int) else 0) = 0 := by simp [hf0]
      have hsc0 : scoreOf mf f0 = 0 := by simp [scoreOf, hf0]
      simp only [classify_best, selectLoop, h0, hs0]
      rw [if_pos (by norm_num : (0:Int) > -1)]
      rw [selectLoop_score_zero conv occs mf rest f0 hrest]
      cases hany : rest.any mf with
      | true =>
        have hmax1 : maxScore mf (f0 :: rest) = 1 := by
          rw [hmax]; simp [hany, hf0]
        obtain ⟨g, hgfind⟩ : ∃ g, rest.find? mf = some g := by
          have hsome : (rest.find? mf).isSome := by
            rw [List.find?_isSome]
            exact List.any_eq_true.mp hany
          exact Option.isSome_iff_exists.mp hsome
        rw [hgfind]
        rw [List.find?_cons_of_neg _ (by simp [hsc0, hmax1])]
        have hpred : (fun f => scoreOf mf f == maxScore mf (f0 :: rest)) = mf := by
          funext f
          cases hmf' : mf f <;> simp [scoreOf, hmf', hmax1]
        rw [hpred, hgfind]
        rfl
      | false =>
        have hmax0 : maxScore mf (f0 :: rest) = 0 := by
          rw [hmax]; simp [hany, hf0]
        have hfind : rest.find? mf = none := by
          rw [List.find?_eq_none]
          intro g hg
          rcases hbool : mf g with _ | _
          · simp
          · exact absurd (List.any_eq_true.mpr ⟨g, hg, hbool⟩) (by simp [hany])
        rw [hfind]
        rw [List.find?_cons_of_pos _ (by simp [hsc0, hmax0])]
        rfl

/-- C8 witness: two filters with empty plans both match (score 1.0); the
loop keeps the one registered first. -/
theorem c8_single_best_first_max_witness :
    classify_best (fun v _ _ => v) []
      [⟨"f1", "first", ⟨[], [], []⟩⟩, ⟨"f2", "second", ⟨[], [], []⟩⟩] =
      .ok (some ⟨"f1", "first", ⟨[], [], []⟩⟩) := by
  have h := c8_single_best_first_max (fun v _ _ => v) []
    [⟨"f1", "first", ⟨[], [], []⟩⟩, ⟨"f2", "second", ⟨[], [], []⟩⟩] (fun _ => true)
    (by
      intro f hf
      simp only [List.mem_cons, List.not_mem_nil, or_false] at hf
      rcases hf with rfl | rfl <;> rfl)
    (by simp)
  rw [h]
  rfl

/-- C1: the claim's non-numeric text-equality fallback for `eq` never fires
— the numeric branch (src/filter_stats.py lines 17-28) consumes every `eq`
clause and returns `False` when no candidate has a numeric value, leaving
the fallback at lines 31-32 unreachable.  At the failing input, a candidate
whose raw text equals the target, the claim requires `True` but the code
yields `False`. -/
theorem c1_eq_text_fallback_dead :
    match_pred (fun v _ _ => v) [⟨"material", some "copper", none, none⟩]
      ⟨"material", "eq", .s "copper", none⟩ = .ok false := by
  decide

/-- C4: a clause whose attribute has no case-insensitively matching
occurrence evaluates to `False` for `eq/gte/lte/range/contains` and to
`True` for `neq/in`. -/
theorem c4_empty_candidates (conv : Conv) (occs : List Occ) (pred : Clause)
    (h : occs.filter (fun o => pyLower o.name_text == pyLower pred.attr) = []) :
    (opIn pred.op ["eq", "gte", "lte", "range", "contains"] = true →
      match_pred conv occs pred = .ok false) ∧
    ((pred.op = "neq" ∨ pred.op = "in") → match_pred conv occs pred = .ok true) := by
  constructor
  · intro hop
    simp [match_pred, h, hop]
  · intro hop
    have hop' : opIn pred.op ["eq", "gte", "lte", "range", "contains"] = false := by
      rcases hop with hop | hop <;> rw [hop] <;> rfl
    simp [match_pred, h, hop']

/-- C4 witness: empty occurrence set, `eq` and `neq` clauses. -/
theorem c4_empty_candidates_witness :
    match_pred (fun v _ _ => v) [] ⟨"cores", "eq", .s "3", none⟩ = .ok false ∧
    match_pred (fun v _ _ => v) [] ⟨"cores", "neq", .s "3", none⟩ = .ok true :=
  ⟨(c4_empty_candidates (fun v _ _ => v) [] ⟨"cores", "eq", .s "3", none⟩ rfl).1 rfl,
   (c4_empty_candidates (fun v _ _ => v) [] ⟨"cores", "neq", .s "3", none⟩ rfl).2 (Or.inl rfl)⟩

/-- C9: over a non-empty candidate set, `neq` is the universal negation:
`True` exactly when no candidate's value text case-insensitively equals the
target. -/
theorem c9_neq_universal (conv : Conv) (occs : List Occ) (attr t : String)
    (unit : Option String)
    (hne : occs.filter (fun o => pyLower o.name_text == pyLower attr) ≠ []) :
    (match_pred conv occs ⟨attr, "neq", .s t, unit⟩ = .ok true ↔
      ∀ o ∈ occs.filter (fun o => pyLower o.name_text == pyLower attr),
        pyLower t ≠ pyLower (orEmpty o.value_text)) := by
  simp only [match_pred, hne, opIn, pyStr, List.all_eq_true]
  simp [hne]
  constructor
  · intro h o ho hA
    rcases h o ho with h1 | h1
    · exact absurd hA h1
    · exact h1
  · intro h o ho
    by_cases hA : pyLower o.name_text = pyLower attr
    · exact Or.inr (h o ho hA)
    · exact Or.inl hA

/-- C9 witness: one non-matching candidate makes `neq` true. -/
theorem c9_neq_universal_witness :
    match_pred (fun v _ _ => v) [⟨"material", some "copper", none, none⟩]
      ⟨"material", "neq", .s "pvc", none⟩ = .ok true := by
  apply (c9_neq_universal (fun v _ _ => v) [⟨"material", some "copper", none, none⟩]
    "material" "pvc" none (by decide)).mpr
  decide

/-- C7: a plan matches exactly when every `must` clause evaluates true and
every `must_not` clause evaluates false; the `should` list has no effect on
the decision. -/
theorem c7_plan_combination (conv : Conv) (occs : List Occ) (plan : FilterPlan) :
    (plan_matches conv occs plan = .ok true ↔
      (∀ p ∈ plan.must, match_pred conv occs p = .ok true) ∧
      (∀ p ∈ plan.must_not, match_pred conv occs p = .ok false)) ∧
    (∀ s₁ s₂ : List Clause,
      plan_matches conv occs ⟨plan.must, plan.must_not, s₁⟩ =
        plan_matches conv occs ⟨plan.must, plan.must_not, s₂⟩) := by
  constructor
  · rw [← allMust_ok_iff, ← allMustNot_ok_iff]
    cases h1 : allMust conv occs plan.must with
    | error e => simp [plan_matches, h1]
    | ok a =>
      cases h2 : allMustNot conv occs plan.must_not with
      | error e => simp [plan_matches, h1, h2]
      | ok b => cases a <;> cases b <;> simp [plan_matches, h1, h2]
  · intro s₁ s₂
    rfl

/-- C10 counterexample: with a numeric candidate present, an `eq` clause
whose value is the comma-decimal string "2,5" does not evaluate to false —
line 21's unguarded `float(val)` raises `ValueError`. -/
theorem c10_comma_decimal_cex :
    match_pred (fun v _ _ => v) [⟨"a", some "3", none, some 3⟩]
      ⟨"a", "eq", .s "2,5", none⟩ = .error .valueError ∧
    match_pred (fun v _ _ => v) [⟨"a", some "3", none, some 3⟩]
      ⟨"a", "eq", .s "2,5", none⟩ ≠ .ok false := by
  have h : match_pred (fun v _ _ => v) [⟨"a", some "3", none, some 3⟩]
      ⟨"a", "eq", .s "2,5", none⟩ = .error .valueError := by decide
  exact ⟨h, by rw [h]; exact fun hh => Except.noConfusion hh⟩

/-- C10 (amended): an `eq`/`gte`/`lte` clause whose string value fails the
digits-with-at-most-one-dot check evaluates to false for every item,
provided `float` can parse the string (e.g. "-5", "1e3") or no candidate
carries a numeric value; when `float` cannot parse it (e.g. "2,5") and a
numeric candidate exists, the evaluator instead raises `ValueError`. -/
theorem c10_nonnumeric_target (conv : Conv) (occs : List Occ) (attr op t : String)
    (unit : Option String) (hop : op = "eq" ∨ op = "gte" ∨ op = "lte")
    (hdl : digitLike t = false)
    (hsafe : pyFloatParse t ≠ none ∨
      ∀ o ∈ occs.filter (fun o => pyLower o.name_text == pyLower attr),
        o.number_value = none) :
    match_pred conv occs ⟨attr, op, .s t, unit⟩ = .ok false := by
  have hfive : opIn op ["eq", "gte", "lte", "range", "contains"] = true := by
    rcases hop with rfl | rfl | rfl <;> rfl
  have hfour : opIn op ["eq", "gte", "lte", "range"] = true := by
    rcases hop with rfl | rfl | rfl <;> rfl
  by_cases hc : occs.filter (fun o => pyLower o.name_text == pyLower attr) = []
  · simp [match_pred, hc, hfive]
  · have hc' : (occs.filter (fun o => pyLower o.name_text == pyLower attr)).isEmpty = false := by
      simp [List.isEmpty_iff, hc]
    simp only [match_pred, hc', Bool.false_eq_true, if_false, hfour, if_true]
    exact numericLoop_bad_target conv op t unit hop hdl _ hsafe

/-- C10 witness: `gte` against the parseable negative string "-5" with a
numeric candidate present evaluates to false. -/
theorem c10_nonnumeric_target_witness :
    match_pred (fun v _ _ => v) [⟨"a", some "3", none, some 3⟩]
      ⟨"a", "gte", .s "-5", none⟩ = .ok false :=
  c10_nonnumeric_target (fun v _ _ => v) [⟨"a", some "3", none, some 3⟩] "a" "gte" "-5" none
    (Or.inr (Or.inl rfl)) (by decide) (Or.inl (by decide))
